import Mathlib

/-!
Shallow embedding of the scheduled-publishing core of the CMS repository.

Sources embedded here:
* `backend/src/models/Topic.js` (the concatenated Lesson model):
  `lessonSchema.methods.validateAssets`, `.publish`, `.schedule`, `.archive`;
* `backend/src/models/Program.js`: `programSchema.methods.autoPublish`;
* the lesson controller (`publishLesson`, `scheduleLesson`, `archiveLesson`);
* the worker service (`processScheduledLessons`): the per-lesson transaction
  with its status re-check, asset validation, lesson save, program cascade,
  per-lesson catch and run summary.

Machine integers and dates are modelled as `Nat` (milliseconds since epoch);
the Mongo collections are association lists keyed by numeric ids.  A single
boolean failure-injection flag on the store (`programSaveFails`) models a
program `save()` call that throws, which is the fallible collaborator
behaviour the cascade-failure claims are about.
-/

namespace CMS

inductive LessonStatus where
  | draft
  | scheduled
  | published
  | archived
deriving DecidableEq, Repr

inductive ProgramStatus where
  | draft
  | published
  | archived
deriving DecidableEq, Repr

inductive ContentType where
  | video
  | article
deriving DecidableEq, Repr

/-- A Lesson document (lessonSchema in `Topic.js`).  Dates are `Nat`
timestamps; `publishAt` is the scheduled due time, `publishedAt` the
publication time. -/
structure Lesson where
  termId : Nat
  lessonNumber : Nat
  title : String
  contentType : ContentType
  durationMs : Option Nat
  isPaid : Bool
  contentLanguagePrimary : String
  contentLanguagesAvailable : List String
  contentUrlsByLanguage : List (String × String)
  subtitleLanguages : List String
  subtitleUrlsByLanguage : List (String × String)
  status : LessonStatus
  publishAt : Option Nat
  publishedAt : Option Nat
deriving DecidableEq, Repr

/-- A Term document (termSchema). -/
structure Term where
  programId : Nat
  termNumber : Nat
  title : String
deriving DecidableEq, Repr

/-- A Program document (programSchema in `Program.js`), restricted to the
fields the publishing subsystem reads or writes. -/
structure Program where
  title : String
  languagePrimary : String
  languagesAvailable : List String
  status : ProgramStatus
  publishedAt : Option Nat
deriving DecidableEq, Repr

/-- A LessonAsset document, as queried by `validateAssets`. -/
structure LessonAsset where
  lessonId : Nat
  language : String
  assetType : String
  variant : String
deriving DecidableEq, Repr

/-- Result shape of `lessonSchema.methods.validateAssets`. -/
structure AssetValidation where
  isValid : Bool
  missingVariants : List String
deriving DecidableEq, Repr

/-- `const requiredVariants = ['portrait', 'landscape']` in `validateAssets`. -/
def requiredVariants : List String := ["portrait", "landscape"]

/-- The `LessonAsset.find({lessonId, language: primary, assetType: 'thumbnail'})`
query of `validateAssets`, then `assets.map(asset => asset.variant)`. -/
def availableVariants (lessonId : Nat) (l : Lesson) (assets : List LessonAsset) :
    List String :=
  (assets.filter (fun a =>
    decide (a.lessonId = lessonId) &&
    decide (a.language = l.contentLanguagePrimary) &&
    decide (a.assetType = "thumbnail"))).map (fun a => a.variant)

/-- `lessonSchema.methods.validateAssets`: the required thumbnail variants for
the primary content language minus the ones on file. -/
def validateAssets (lessonId : Nat) (l : Lesson) (assets : List LessonAsset) :
    AssetValidation :=
  let avail := availableVariants lessonId l assets
  let missing := requiredVariants.filter (fun v => !(avail.contains v))
  { isValid := missing.length = 0, missingVariants := missing }

/-- Outcome of the pure part of `lessonSchema.methods.publish` (asset check
plus the field mutations, before `save()`). -/
inductive PublishResult where
  | ok (l : Lesson)
  | assetsIncomplete (missingVariants : List String)
deriving DecidableEq, Repr

/-- The validate-then-mutate part of `lessonSchema.methods.publish`:
throws `AssetsIncomplete` before touching any field, otherwise sets
`status = 'published'`, `publishedAt = new Date()`, `publishAt = undefined`. -/
def publishMethod (lessonId : Nat) (l : Lesson) (assets : List LessonAsset)
    (now : Nat) : PublishResult :=
  let v := validateAssets lessonId l assets
  if v.isValid then
    .ok { l with status := .published, publishedAt := some now, publishAt := none }
  else
    .assetsIncomplete v.missingVariants

/-- Outcome of `lessonSchema.methods.schedule`. -/
inductive ScheduleResult where
  | ok (l : Lesson)
  | invalidSchedule
deriving DecidableEq, Repr

/-- `lessonSchema.methods.schedule(publishAt)`: rejects
`!publishAt || publishAt <= new Date()` before any mutation, otherwise sets
`status = 'scheduled'`, `publishAt`, and clears `publishedAt`.  No check of
the lesson's current status is performed. -/
def scheduleMethod (l : Lesson) (publishAt : Option Nat) (now : Nat) :
    ScheduleResult :=
  match publishAt with
  | none => .invalidSchedule
  | some t =>
    if t ≤ now then .invalidSchedule
    else .ok { l with status := .scheduled, publishAt := some t, publishedAt := none }

/-- `lessonSchema.methods.archive`: sets `status = 'archived'` and nothing
else. -/
def archiveMethod (l : Lesson) : Lesson :=
  { l with status := .archived }

/-- `programSchema.methods.autoPublish`: when the program is still draft,
set `status = 'published'` and `publishedAt = this.publishedAt || new Date()`;
otherwise return the program unchanged. -/
def autoPublish (p : Program) (now : Nat) : Program :=
  if p.status = ProgramStatus.draft then
    { p with status := .published, publishedAt := some (p.publishedAt.getD now) }
  else p

/-! ### The content store

Mongo collections as association lists keyed by id; `findById` and
replace-by-id saves. -/

/-- `findById`. -/
def lookupId {α : Type} : List (Nat × α) → Nat → Option α
  | [], _ => none
  | (k, w) :: rest, id => if k = id then some w else lookupId rest id

/-- `save()` of a loaded document: replace the document with the given id. -/
def updId {α : Type} : List (Nat × α) → Nat → α → List (Nat × α)
  | [], _, _ => []
  | (k, w) :: rest, id, v =>
    if k = id then (id, v) :: updId rest id v
    else (k, w) :: updId rest id v

/-- Persistent state: the lesson, term, program and lesson-asset collections,
plus the failure-injection flag for program saves. -/
structure Store where
  lessons : List (Nat × Lesson)
  terms : List (Nat × Term)
  programs : List (Nat × Program)
  lessonAssets : List LessonAsset
  programSaveFails : Bool
deriving DecidableEq, Repr

def findLesson (st : Store) (id : Nat) : Option Lesson :=
  lookupId st.lessons id

def findTerm (st : Store) (id : Nat) : Option Term :=
  lookupId st.terms id

def findProgram (st : Store) (id : Nat) : Option Program :=
  lookupId st.programs id

def saveLesson (st : Store) (id : Nat) (l : Lesson) : Store :=
  { st with lessons := updId st.lessons id l }

/-- Saving a program can fail (`none`) when the failure-injection flag is
set; otherwise it replaces the program document. -/
def saveProgram (st : Store) (id : Nat) (p : Program) : Option Store :=
  if st.programSaveFails then none
  else some { st with programs := updId st.programs id p }

/-! ### Admin orchestration (lesson controller + model methods) -/

/-- Outcome of the admin `POST /lessons/:id/publish` path
(`publishLesson` controller calling `lesson.publish()`).
`cascadeFailed` is the case where the lesson was saved but the parent
program's `save()` inside `autoPublish` threw: the controller surfaces the
error, the already-saved lesson stays published. -/
inductive AdminPublishOutcome where
  | published
  | assetsIncomplete (missingVariants : List String)
  | notFound
  | cascadeFailed
deriving DecidableEq, Repr

/-- The admin publish path: `findById`, `lesson.publish()` (asset check,
mutate, save) and the draft-program cascade via `autoPublish`.  The source
performs no check of the lesson's current status and no compare-and-set:
`save()` replaces the document unconditionally. -/
def publishLesson (st : Store) (id : Nat) (now : Nat) :
    Store × AdminPublishOutcome :=
  match findLesson st id with
  | none => (st, .notFound)
  | some l =>
    match publishMethod id l st.lessonAssets now with
    | .assetsIncomplete m => (st, .assetsIncomplete m)
    | .ok l' =>
      let st₁ := saveLesson st id l'
      match findTerm st₁ l.termId with
      | none => (st₁, .published)
      | some term =>
        match findProgram st₁ term.programId with
        | none => (st₁, .published)
        | some prog =>
          if prog.status = ProgramStatus.draft then
            match saveProgram st₁ term.programId (autoPublish prog now) with
            | some st₂ => (st₂, .published)
            | none => (st₁, .cascadeFailed)
          else (st₁, .published)

/-- Outcome of the admin `POST /lessons/:id/schedule` path. -/
inductive ScheduleOutcome where
  | scheduled
  | invalidSchedule
  | missingPublishAt
  | notFound
deriving DecidableEq, Repr

/-- The admin schedule path: the controller rejects a missing `publishAt`
before loading the lesson, then `lesson.schedule(publishAt)` runs.  Every
rejection happens before any write. -/
def scheduleLesson (st : Store) (id : Nat) (publishAt : Option Nat)
    (now : Nat) : Store × ScheduleOutcome :=
  match publishAt with
  | none => (st, .missingPublishAt)
  | some t =>
    match findLesson st id with
    | none => (st, .notFound)
    | some l =>
      match scheduleMethod l (some t) now with
      | .invalidSchedule => (st, .invalidSchedule)
      | .ok l' => (saveLesson st id l', .scheduled)

/-- The admin archive path: `findById` then `lesson.archive()` (set status,
save). Returns whether the lesson was found. -/
def archiveLesson (st : Store) (id : Nat) : Store × Bool :=
  match findLesson st id with
  | none => (st, false)
  | some l => (saveLesson st id (archiveMethod l), true)

/-! ### Worker (`processScheduledLessons`) -/

/-- Per-lesson outcome inside the worker loop.
`noOp`: the in-transaction re-check found the lesson missing or no longer
`scheduled` (warned, nothing written, not counted).
`assetsIncomplete`: asset validation failed (logged, `errorCount++`, nothing
written, transaction commits empty).
`txnError`: an exception inside `withTransaction` (here: the program
`save()` threw) aborted the transaction — every session write, the lesson's
included, is rolled back, and the outer catch counts one error. -/
inductive DueOutcome where
  | published
  | noOp
  | assetsIncomplete (missingVariants : List String)
  | txnError
deriving DecidableEq, Repr

/-- One iteration of the worker's per-lesson loop: the `withTransaction`
body (status re-check, `validateAssets`, lesson save, draft-program cascade)
with rollback-on-exception semantics. -/
def processOne (st : Store) (id : Nat) (now : Nat) : Store × DueOutcome :=
  match findLesson st id with
  | none => (st, .noOp)
  | some current =>
    if current.status ≠ LessonStatus.scheduled then (st, .noOp)
    else
      let v := validateAssets id current st.lessonAssets
      if v.isValid then
        let l' := { current with
          status := .published, publishedAt := some now, publishAt := none }
        let st₁ := saveLesson st id l'
        match findTerm st₁ current.termId with
        | none => (st₁, .published)
        | some term =>
          match findProgram st₁ term.programId with
          | none => (st₁, .published)
          | some prog =>
            if prog.status = ProgramStatus.draft then
              match saveProgram st₁ term.programId
                  { prog with
                    status := .published,
                    publishedAt := some (prog.publishedAt.getD now) } with
              | some st₂ => (st₂, .published)
              | none => (st, .txnError)
            else (st₁, .published)
      else (st, .assetsIncomplete v.missingVariants)

/-- The worker's per-tick summary (`totalFound`, `processed`, `errors` in the
completion log). -/
structure RunReport where
  found : Nat
  processed : Nat
  errors : Nat
deriving DecidableEq, Repr

/-- How one per-lesson outcome enters the run summary: `processedCount++` on
success, `errorCount++` on an asset failure or a caught exception, nothing
for the no-op guard branch. -/
def countOutcome (rep : RunReport) (o : DueOutcome) : RunReport :=
  match o with
  | .published => { rep with processed := rep.processed + 1 }
  | .noOp => rep
  | .assetsIncomplete _ => { rep with errors := rep.errors + 1 }
  | .txnError => { rep with errors := rep.errors + 1 }

/-- The worker's `for (const lesson of scheduledLessons)` loop: each item is
processed in turn, its outcome folded into the summary; one item's failure
never stops the loop. -/
def runList (st : Store) (ids : List Nat) (now : Nat) (rep : RunReport) :
    Store × RunReport :=
  match ids with
  | [] => (st, rep)
  | id :: rest =>
    let r := processOne st id now
    runList r.fst rest now (countOutcome rep r.snd)

/-- `true` iff the stored due time matches `publishAt: { $lte: now }`. -/
def isDue (publishAt : Option Nat) (now : Nat) : Bool :=
  match publishAt with
  | none => false
  | some t => t ≤ now

def dueKey (l : Lesson) : Nat := l.publishAt.getD 0

def insertByDue (x : Nat × Lesson) : List (Nat × Lesson) → List (Nat × Lesson)
  | [] => [x]
  | y :: rest =>
    if dueKey x.snd ≤ dueKey y.snd then x :: y :: rest
    else y :: insertByDue x rest

def sortByDue : List (Nat × Lesson) → List (Nat × Lesson)
  | [] => []
  | x :: rest => insertByDue x (sortByDue rest)

/-- The worker's due query:
`Lesson.find({status: 'scheduled', publishAt: {$lte: now}}).sort({publishAt: 1})`. -/
def findDueLessons (st : Store) (now : Nat) : List Nat :=
  (sortByDue (st.lessons.filter (fun p =>
    decide (p.snd.status = LessonStatus.scheduled) &&
    isDue p.snd.publishAt now))).map Prod.fst

/-- One whole worker tick: the due query followed by the per-lesson loop,
starting from an empty summary with `found` set to the query's size. -/
def processScheduledLessons (st : Store) (now : Nat) : Store × RunReport :=
  let due := findDueLessons st now
  runList st due now { found := due.length, processed := 0, errors := 0 }

/-! ### Operation sequences (for the lifecycle invariant claims) -/

/-- One lifecycle operation, as reachable from the admin surface or the
worker. -/
inductive AdminOp where
  | publishNow (id now : Nat)
  | scheduleAt (id : Nat) (publishAt : Option Nat) (now : Nat)
  | archiveOp (id : Nat)
  | workerTick (now : Nat)
deriving Repr

def applyOp (st : Store) : AdminOp → Store
  | .publishNow id now => (publishLesson st id now).fst
  | .scheduleAt id t now => (scheduleLesson st id t now).fst
  | .archiveOp id => (archiveLesson st id).fst
  | .workerTick now => (processScheduledLessons st now).fst

def applyOps (st : Store) (ops : List AdminOp) : Store :=
  ops.foldl applyOp st

/-- The directions of the lifecycle invariant that the mongoose validators
enforce: a scheduled lesson has a due time, a published lesson has a
publication time. -/
def statusTimestampsOk (l : Lesson) : Prop :=
  (l.status = LessonStatus.scheduled → l.publishAt ≠ none) ∧
  (l.status = LessonStatus.published → l.publishedAt ≠ none)

instance (l : Lesson) : Decidable (statusTimestampsOk l) := by
  unfold statusTimestampsOk
  infer_instance

/-- Every stored lesson satisfies `statusTimestampsOk`. -/
def storeLessonsOk (st : Store) : Prop :=
  ∀ p ∈ st.lessons, statusTimestampsOk p.snd

instance (st : Store) : Decidable (storeLessonsOk st) := by
  unfold storeLessonsOk
  infer_instance

/-! ### Concrete stores used to exercise the operations -/

/-- A complete draft lesson in term 1 with primary content language "en". -/
def baseLesson : Lesson :=
  { termId := 1, lessonNumber := 1, title := "Intro", contentType := .video,
    durationMs := some 60000, isPaid := false, contentLanguagePrimary := "en",
    contentLanguagesAvailable := ["en"],
    contentUrlsByLanguage := [("en", "https://cdn.example/intro-en")],
    subtitleLanguages := [], subtitleUrlsByLanguage := [],
    status := .draft, publishAt := none, publishedAt := none }

def baseTerm : Term := { programId := 1, termNumber := 1, title := "Term 1" }

def baseProgram : Program :=
  { title := "Program", languagePrimary := "en", languagesAvailable := ["en"],
    status := .draft, publishedAt := none }

/-- Both required thumbnail variants for lesson 1, language "en". -/
def fullAssets : List LessonAsset :=
  [ { lessonId := 1, language := "en", assetType := "thumbnail", variant := "portrait" },
    { lessonId := 1, language := "en", assetType := "thumbnail", variant := "landscape" } ]

/-- Lesson 1 has only a portrait thumbnail: the landscape variant is missing. -/
def exStoreC1 : Store :=
  { lessons := [(1, baseLesson)], terms := [(1, baseTerm)],
    programs := [(1, baseProgram)],
    lessonAssets :=
      [ { lessonId := 1, language := "en", assetType := "thumbnail", variant := "portrait" } ],
    programSaveFails := false }

/-- Lesson 1 scheduled for time 5; both invariant biconditionals hold. -/
def exStoreC2 : Store :=
  { lessons := [(1, { baseLesson with status := .scheduled, publishAt := some 5 })],
    terms := [(1, baseTerm)], programs := [(1, baseProgram)],
    lessonAssets := fullAssets, programSaveFails := false }

def exLessonC3 : Lesson := { baseLesson with status := .scheduled, publishAt := some 3 }

/-- Lesson 1 scheduled and due, with complete assets, under a draft program. -/
def exStoreC3 : Store :=
  { lessons := [(1, exLessonC3)], terms := [(1, baseTerm)],
    programs := [(1, baseProgram)],
    lessonAssets := fullAssets, programSaveFails := false }

/-- Draft lesson under a draft program, complete assets. -/
def exStoreC4 : Store :=
  { lessons := [(1, baseLesson)], terms := [(1, baseTerm)],
    programs := [(1, baseProgram)],
    lessonAssets := fullAssets, programSaveFails := false }

/-- Like `exStoreC4` but the parent program is already published. -/
def exStoreC4b : Store :=
  { lessons := [(1, baseLesson)], terms := [(1, baseTerm)],
    programs := [(1, { baseProgram with status := .published, publishedAt := some 2 })],
    lessonAssets := fullAssets, programSaveFails := false }

def exLessonC5 : Lesson := { baseLesson with status := .archived }

/-- Lesson 1 already archived (its status was changed by another process),
complete assets. -/
def exStoreC5 : Store :=
  { lessons := [(1, exLessonC5)], terms := [(1, baseTerm)],
    programs := [(1, baseProgram)],
    lessonAssets := fullAssets, programSaveFails := false }

def exLessonC6a : Lesson := { baseLesson with status := .scheduled, publishAt := some 3 }

def exLessonC6b : Lesson :=
  { baseLesson with lessonNumber := 2, status := .scheduled, publishAt := some 4 }

/-- Two due scheduled lessons; lesson 1 has no assets at all (they were
deleted after scheduling), lesson 2 has both variants. -/
def exStoreC6 : Store :=
  { lessons := [(1, exLessonC6a), (2, exLessonC6b)], terms := [(1, baseTerm)],
    programs := [(1, baseProgram)],
    lessonAssets :=
      [ { lessonId := 2, language := "en", assetType := "thumbnail", variant := "portrait" },
        { lessonId := 2, language := "en", assetType := "thumbnail", variant := "landscape" } ],
    programSaveFails := false }

/-- A plain draft lesson, target of schedule requests. -/
def exStoreC7 : Store :=
  { lessons := [(1, baseLesson)], terms := [(1, baseTerm)],
    programs := [(1, baseProgram)],
    lessonAssets := fullAssets, programSaveFails := false }

def exLessonC8 : Lesson := { baseLesson with status := .scheduled, publishAt := some 3 }

/-- A due scheduled lesson with complete assets under a draft program, with
the program save set up to fail. -/
def exStoreC8 : Store :=
  { lessons := [(1, exLessonC8)], terms := [(1, baseTerm)],
    programs := [(1, baseProgram)],
    lessonAssets := fullAssets, programSaveFails := true }

def exLessonC9 : Lesson := { baseLesson with status := .archived }

/-- An archived lesson, target of a re-schedule request. -/
def exStoreC9 : Store :=
  { lessons := [(1, exLessonC9)], terms := [(1, baseTerm)],
    programs := [(1, baseProgram)],
    lessonAssets := fullAssets, programSaveFails := false }

def exLessonC10 : Lesson :=
  { baseLesson with status := .published, publishedAt := some 4 }

/-- A published lesson (publishedAt = 4), target of an archive request. -/
def exStoreC10 : Store :=
  { lessons := [(1, exLessonC10)], terms := [(1, baseTerm)],
    programs := [(1, { baseProgram with status := .published, publishedAt := some 4 })],
    lessonAssets := fullAssets, programSaveFails := false }

/-! ### Store lemmas -/

theorem lookupId_updId_self {α : Type} (xs : List (Nat × α)) (id : Nat) (v : α) :
    lookupId (updId xs id v) id = (lookupId xs id).map (fun _ => v) := by
  induction xs with
  | nil => rfl
  | cons hd tl ih =>
    obtain ⟨k, w⟩ := hd
    by_cases h : k = id
    · subst h
      simp [updId, lookupId]
    · simp [updId, lookupId, h, ih]

theorem lookupId_updId_ne {α : Type} (xs : List (Nat × α)) {i j : Nat}
    (v : α) (h : i ≠ j) : lookupId (updId xs j v) i = lookupId xs i := by
  induction xs with
  | nil => rfl
  | cons hd tl ih =>
    obtain ⟨k, w⟩ := hd
    by_cases hk : k = j
    · subst hk
      simp [updId, lookupId, Ne.symm h, ih]
    · simp [updId, lookupId, hk, ih]

theorem mem_updId {α : Type} {xs : List (Nat × α)} {id : Nat} {v : α}
    {p : Nat × α} (h : p ∈ updId xs id v) : p = (id, v) ∨ p ∈ xs := by
  induction xs with
  | nil =>
    simp [updId] at h
  | cons hd tl ih =>
    obtain ⟨k, w⟩ := hd
    by_cases hk : k = id
    · subst hk
      simp only [updId, if_true, eq_self_iff_true, List.mem_cons] at h
      rcases h with h₁ | h₁
      · exact Or.inl h₁
      · rcases ih h₁ with h₂ | h₂
        · exact Or.inl h₂
        · exact Or.inr (List.mem_cons_of_mem _ h₂)
    · simp only [updId, if_neg hk, List.mem_cons] at h
      rcases h with h₁ | h₁
      · exact Or.inr (List.mem_cons.mpr (Or.inl h₁))
      · rcases ih h₁ with h₂ | h₂
        · exact Or.inl h₂
        · exact Or.inr (List.mem_cons_of_mem _ h₂)

theorem findLesson_saveLesson_self (st : Store) (id : Nat) (l : Lesson) :
    findLesson (saveLesson st id l) id = (findLesson st id).map (fun _ => l) :=
  lookupId_updId_self st.lessons id l

theorem findTerm_saveLesson (st : Store) (id : Nat) (l : Lesson) (x : Nat) :
    findTerm (saveLesson st id l) x = findTerm st x := rfl

theorem findProgram_saveLesson (st : Store) (id : Nat) (l : Lesson) (x : Nat) :
    findProgram (saveLesson st id l) x = findProgram st x := rfl

theorem saveProgram_eq_some {st : Store} {id : Nat} {p : Program} {st' : Store}
    (h : saveProgram st id p = some st') :
    st' = { st with programs := updId st.programs id p } := by
  unfold saveProgram at h
  by_cases hf : st.programSaveFails = true
  · rw [if_pos hf] at h
    exact absurd h (by simp)
  · rw [if_neg hf] at h
    exact (Option.some.inj h).symm

theorem saveProgram_of_not_fails {st : Store} (h : st.programSaveFails = false)
    (id : Nat) (p : Program) :
    saveProgram st id p = some { st with programs := updId st.programs id p } := by
  simp [saveProgram, h]

theorem saveProgram_fails {st : Store} (h : st.programSaveFails = true)
    (id : Nat) (p : Program) : saveProgram st id p = none := by
  simp [saveProgram, h]

theorem saveProgram_saveLesson_not_fails {st : Store}
    (hnf : st.programSaveFails = false) (i : Nat) (l : Lesson) (j : Nat)
    (p : Program) :
    saveProgram (saveLesson st i l) j p =
      some { saveLesson st i l with
             programs := updId (saveLesson st i l).programs j p } :=
  saveProgram_of_not_fails
    (show (saveLesson st i l).programSaveFails = false from hnf) j p

theorem saveProgram_saveLesson_fails {st : Store}
    (hfail : st.programSaveFails = true) (i : Nat) (l : Lesson) (j : Nat)
    (p : Program) : saveProgram (saveLesson st i l) j p = none :=
  saveProgram_fails
    (show (saveLesson st i l).programSaveFails = true from hfail) j p

theorem publishMethod_ok {id : Nat} {l : Lesson} {assets : List LessonAsset}
    {now : Nat} {l' : Lesson}
    (h : publishMethod id l assets now = .ok l') :
    l' = { l with status := .published, publishedAt := some now, publishAt := none } ∧
    (validateAssets id l assets).isValid = true := by
  unfold publishMethod at h
  by_cases hv : (validateAssets id l assets).isValid
  · simp [hv] at h
    exact ⟨h.symm, hv⟩
  · simp [hv] at h

theorem publishMethod_of_valid {id : Nat} {l : Lesson} {assets : List LessonAsset}
    (now : Nat) (hv : (validateAssets id l assets).isValid = true) :
    publishMethod id l assets now =
      .ok { l with status := .published, publishedAt := some now, publishAt := none } := by
  simp [publishMethod, hv]

theorem publishMethod_of_invalid {id : Nat} {l : Lesson} {assets : List LessonAsset}
    (now : Nat) (hv : (validateAssets id l assets).isValid = false) :
    publishMethod id l assets now =
      .assetsIncomplete (validateAssets id l assets).missingVariants := by
  simp [publishMethod, hv]

theorem scheduleMethod_ok {l : Lesson} {t now : Nat} {l' : Lesson}
    (h : scheduleMethod l (some t) now = .ok l') :
    l' = { l with status := .scheduled, publishAt := some t, publishedAt := none } ∧
    now < t := by
  unfold scheduleMethod at h
  by_cases ht : t ≤ now
  · simp [ht] at h
  · simp [ht] at h
    exact ⟨h.symm, Nat.lt_of_not_le ht⟩

/-! ### Preservation of the validator-direction invariants -/

theorem statusTimestampsOk_published_write (l : Lesson) (now : Nat) :
    statusTimestampsOk
      { l with status := .published, publishedAt := some now, publishAt := none } := by
  constructor <;> intro h <;> simp_all

theorem statusTimestampsOk_scheduled_write (l : Lesson) (t : Nat) :
    statusTimestampsOk
      { l with status := .scheduled, publishAt := some t, publishedAt := none } := by
  constructor <;> intro h <;> simp_all

theorem statusTimestampsOk_archived_write (l : Lesson) :
    statusTimestampsOk (archiveMethod l) := by
  constructor <;> intro h <;> simp_all [archiveMethod]

theorem storeLessonsOk_of_lessons_eq {st st' : Store}
    (h : st'.lessons = st.lessons) (hok : storeLessonsOk st) :
    storeLessonsOk st' := by
  intro p hp
  exact hok p (h ▸ hp)

theorem storeLessonsOk_saveLesson {st : Store} {id : Nat} {l : Lesson}
    (hok : storeLessonsOk st) (hl : statusTimestampsOk l) :
    storeLessonsOk (saveLesson st id l) := by
  intro p hp
  rcases mem_updId hp with h | h
  · subst h
    exact hl
  · exact hok p h

theorem storeLessonsOk_publishLesson {st : Store} (id now : Nat)
    (h : storeLessonsOk st) : storeLessonsOk (publishLesson st id now).fst := by
  unfold publishLesson
  split
  · exact h
  next l hl =>
    split
    · exact h
    next l' hok =>
      obtain ⟨hl', _⟩ := publishMethod_ok hok
      subst hl'
      have hsave : storeLessonsOk
          (saveLesson st id
            { l with status := .published, publishedAt := some now, publishAt := none }) :=
        storeLessonsOk_saveLesson h (statusTimestampsOk_published_write l now)
      dsimp only
      split
      · exact hsave
      · split
        · exact hsave
        · split
          · split
            next st₂ hsp =>
              refine storeLessonsOk_of_lessons_eq ?_ hsave
              rw [saveProgram_eq_some hsp]
            next hsp => exact hsave
          · exact hsave

theorem storeLessonsOk_scheduleLesson {st : Store} (id : Nat)
    (t : Option Nat) (now : Nat) (h : storeLessonsOk st) :
    storeLessonsOk (scheduleLesson st id t now).fst := by
  unfold scheduleLesson
  split
  · exact h
  · split
    · exact h
    · split
      · exact h
      next l' hok =>
        obtain ⟨hl', _⟩ := scheduleMethod_ok hok
        subst hl'
        exact storeLessonsOk_saveLesson h (statusTimestampsOk_scheduled_write _ _)

theorem storeLessonsOk_archiveLesson {st : Store} (id : Nat)
    (h : storeLessonsOk st) : storeLessonsOk (archiveLesson st id).fst := by
  unfold archiveLesson
  split
  · exact h
  · exact storeLessonsOk_saveLesson h (statusTimestampsOk_archived_write _)

theorem storeLessonsOk_processOne {st : Store} (id now : Nat)
    (h : storeLessonsOk st) : storeLessonsOk (processOne st id now).fst := by
  unfold processOne
  split
  · exact h
  next current hcur =>
    split
    · exact h
    · dsimp only
      split
      · have hsave : storeLessonsOk
            (saveLesson st id
              { current with
                status := .published, publishedAt := some now, publishAt := none }) :=
          storeLessonsOk_saveLesson h (statusTimestampsOk_published_write current now)
        split
        · exact hsave
        · split
          · exact hsave
          · split
            · split
              next st₂ hsp =>
                refine storeLessonsOk_of_lessons_eq ?_ hsave
                rw [saveProgram_eq_some hsp]
              next hsp => exact h
            · exact hsave
      · exact h

theorem storeLessonsOk_runList {ids : List Nat} {st : Store} {now : Nat}
    {rep : RunReport} (h : storeLessonsOk st) :
    storeLessonsOk (runList st ids now rep).fst := by
  induction ids generalizing st rep with
  | nil => exact h
  | cons id rest ih =>
    exact ih (storeLessonsOk_processOne id now h)

theorem storeLessonsOk_tick {st : Store} (now : Nat) (h : storeLessonsOk st) :
    storeLessonsOk (processScheduledLessons st now).fst :=
  storeLessonsOk_runList h

/-! ### Path characterizations of the orchestration operations -/

theorem programSaveFails_saveLesson (st : Store) (id : Nat) (l : Lesson) :
    (saveLesson st id l).programSaveFails = st.programSaveFails := rfl

theorem lessonAssets_saveLesson (st : Store) (id : Nat) (l : Lesson) :
    (saveLesson st id l).lessonAssets = st.lessonAssets := rfl

/-- Admin publish with complete assets and no injected save failure always
stores the published lesson and reports success — no matter what the
lesson's prior status was and whether the term or program exist. -/
theorem publishLesson_publishes {st : Store} {id : Nat} {l : Lesson} (now : Nat)
    (hf : findLesson st id = some l)
    (hv : (validateAssets id l st.lessonAssets).isValid = true)
    (hnf : st.programSaveFails = false) :
    findLesson (publishLesson st id now).fst id =
      some { l with status := .published, publishedAt := some now, publishAt := none } ∧
    (publishLesson st id now).snd = .published := by
  unfold publishLesson
  rw [hf]
  dsimp only
  rw [publishMethod_of_valid now hv]
  dsimp only
  cases hterm : findTerm (saveLesson st id
      { l with status := .published, publishedAt := some now, publishAt := none })
      l.termId with
  | none =>
    dsimp only
    refine ⟨?_, rfl⟩
    rw [findLesson_saveLesson_self, hf]
    rfl
  | some term =>
    dsimp only
    cases hprog : findProgram (saveLesson st id
        { l with status := .published, publishedAt := some now, publishAt := none })
        term.programId with
    | none =>
      dsimp only
      refine ⟨?_, rfl⟩
      rw [findLesson_saveLesson_self, hf]
      rfl
    | some prog =>
      dsimp only
      by_cases hd : prog.status = ProgramStatus.draft
      · rw [if_pos hd]
        rw [saveProgram_saveLesson_not_fails hnf]
        dsimp only
        refine ⟨?_, rfl⟩
        show lookupId (updId st.lessons id _) id = _
        rw [lookupId_updId_self]
        unfold findLesson at hf
        rw [hf]
        rfl
      · rw [if_neg hd]
        refine ⟨?_, rfl⟩
        rw [findLesson_saveLesson_self, hf]
        rfl

/-- Admin publish, draft parent program, no save failure: the program is
written back as `autoPublish` leaves it. -/
theorem publishLesson_cascade_draft {st : Store} {id : Nat} {l : Lesson}
    {term : Term} {prog : Program} (now : Nat)
    (hf : findLesson st id = some l)
    (hv : (validateAssets id l st.lessonAssets).isValid = true)
    (hterm : findTerm st l.termId = some term)
    (hprog : findProgram st term.programId = some prog)
    (hd : prog.status = ProgramStatus.draft)
    (hnf : st.programSaveFails = false) :
    findProgram (publishLesson st id now).fst term.programId =
      some (autoPublish prog now) := by
  unfold publishLesson
  rw [hf]
  dsimp only
  rw [publishMethod_of_valid now hv]
  dsimp only
  rw [findTerm_saveLesson, hterm]
  dsimp only
  rw [findProgram_saveLesson, hprog]
  dsimp only
  rw [if_pos hd, saveProgram_saveLesson_not_fails hnf]
  dsimp only
  show lookupId (updId _ term.programId _) term.programId = _
  rw [lookupId_updId_self]
  unfold findProgram at hprog
  rw [show lookupId (saveLesson st id
      { l with status := .published, publishedAt := some now, publishAt := none }).programs
      term.programId = lookupId st.programs term.programId from rfl]
  rw [hprog]
  rfl

/-- Admin publish, parent program already published or archived: the
program document is left exactly as it was and the publish still succeeds. -/
theorem publishLesson_cascade_nondraft {st : Store} {id : Nat} {l : Lesson}
    {term : Term} {prog : Program} (now : Nat)
    (hf : findLesson st id = some l)
    (hv : (validateAssets id l st.lessonAssets).isValid = true)
    (hterm : findTerm st l.termId = some term)
    (hprog : findProgram st term.programId = some prog)
    (hd : prog.status ≠ ProgramStatus.draft) :
    findProgram (publishLesson st id now).fst term.programId = some prog ∧
    (publishLesson st id now).snd = .published := by
  unfold publishLesson
  rw [hf]
  dsimp only
  rw [publishMethod_of_valid now hv]
  dsimp only
  rw [findTerm_saveLesson, hterm]
  dsimp only
  rw [findProgram_saveLesson, hprog]
  dsimp only
  rw [if_neg hd]
  exact ⟨by rw [findProgram_saveLesson, hprog], rfl⟩

/-- Admin publish, draft parent program, injected program save failure:
the lesson write sticks, the program stays untouched, the controller
surfaces the cascade failure. -/
theorem publishLesson_cascadeFailure {st : Store} {id : Nat} {l : Lesson}
    {term : Term} {prog : Program} (now : Nat)
    (hf : findLesson st id = some l)
    (hv : (validateAssets id l st.lessonAssets).isValid = true)
    (hterm : findTerm st l.termId = some term)
    (hprog : findProgram st term.programId = some prog)
    (hd : prog.status = ProgramStatus.draft)
    (hfail : st.programSaveFails = true) :
    publishLesson st id now =
      (saveLesson st id
        { l with status := .published, publishedAt := some now, publishAt := none },
       .cascadeFailed) := by
  unfold publishLesson
  rw [hf]
  dsimp only
  rw [publishMethod_of_valid now hv]
  dsimp only
  rw [findTerm_saveLesson, hterm]
  dsimp only
  rw [findProgram_saveLesson, hprog]
  dsimp only
  rw [if_pos hd, saveProgram_saveLesson_fails hfail]

/-- Worker per-lesson step: the transaction's re-check turns a lesson that
is no longer `scheduled` into a pure no-op. -/
theorem processOne_noOp {st : Store} {id now : Nat} {l : Lesson}
    (hf : findLesson st id = some l)
    (hs : l.status ≠ LessonStatus.scheduled) :
    processOne st id now = (st, .noOp) := by
  unfold processOne
  rw [hf]
  dsimp only
  rw [if_pos hs]

/-- Worker per-lesson step: a scheduled lesson whose assets are incomplete
is reported as an asset failure and nothing is written. -/
theorem processOne_assetsIncomplete {st : Store} {id now : Nat} {l : Lesson}
    (hf : findLesson st id = some l)
    (hs : l.status = LessonStatus.scheduled)
    (hv : (validateAssets id l st.lessonAssets).isValid = false) :
    processOne st id now =
      (st, .assetsIncomplete (validateAssets id l st.lessonAssets).missingVariants) := by
  unfold processOne
  rw [hf]
  dsimp only
  rw [if_neg (by simp [hs])]
  rw [if_neg (by simp [hv])]

/-- Worker per-lesson step, happy path: the scheduled lesson is stored as
published and the outcome counts as processed. -/
theorem processOne_publishes {st : Store} {id : Nat} {l : Lesson} (now : Nat)
    (hf : findLesson st id = some l)
    (hs : l.status = LessonStatus.scheduled)
    (hv : (validateAssets id l st.lessonAssets).isValid = true)
    (hnf : st.programSaveFails = false) :
    findLesson (processOne st id now).fst id =
      some { l with status := .published, publishedAt := some now, publishAt := none } ∧
    (processOne st id now).snd = .published := by
  unfold processOne
  rw [hf]
  dsimp only
  rw [if_neg (by simp [hs])]
  rw [if_pos hv]
  cases hterm : findTerm (saveLesson st id
      { l with status := .published, publishedAt := some now, publishAt := none })
      l.termId with
  | none =>
    dsimp only
    refine ⟨?_, rfl⟩
    rw [findLesson_saveLesson_self, hf]
    rfl
  | some term =>
    dsimp only
    cases hprog : findProgram (saveLesson st id
        { l with status := .published, publishedAt := some now, publishAt := none })
        term.programId with
    | none =>
      dsimp only
      refine ⟨?_, rfl⟩
      rw [findLesson_saveLesson_self, hf]
      rfl
    | some prog =>
      dsimp only
      by_cases hd : prog.status = ProgramStatus.draft
      · rw [if_pos hd]
        rw [saveProgram_saveLesson_not_fails hnf]
        dsimp only
        refine ⟨?_, rfl⟩
        show lookupId (updId st.lessons id _) id = _
        rw [lookupId_updId_self]
        unfold findLesson at hf
        rw [hf]
        rfl
      · rw [if_neg hd]
        refine ⟨?_, rfl⟩
        rw [findLesson_saveLesson_self, hf]
        rfl

/-- Worker per-lesson step, draft parent program, injected program save
failure: the whole transaction is rolled back — the store, the lesson's own
already-executed save included, reverts to its prior state — and the outer
catch records the error. -/
theorem processOne_txnFailure {st : Store} {id : Nat} {l : Lesson}
    {term : Term} {prog : Program} (now : Nat)
    (hf : findLesson st id = some l)
    (hs : l.status = LessonStatus.scheduled)
    (hv : (validateAssets id l st.lessonAssets).isValid = true)
    (hterm : findTerm st l.termId = some term)
    (hprog : findProgram st term.programId = some prog)
    (hd : prog.status = ProgramStatus.draft)
    (hfail : st.programSaveFails = true) :
    processOne st id now = (st, .txnError) := by
  unfold processOne
  rw [hf]
  dsimp only
  rw [if_neg (by simp [hs])]
  rw [if_pos hv]
  rw [findTerm_saveLesson, hterm]
  dsimp only
  rw [findProgram_saveLesson, hprog]
  dsimp only
  rw [if_pos hd, saveProgram_saveLesson_fails hfail]

theorem storeLessonsOk_applyOp {st : Store} (op : AdminOp)
    (h : storeLessonsOk st) : storeLessonsOk (applyOp st op) := by
  cases op with
  | publishNow id now => exact storeLessonsOk_publishLesson id now h
  | scheduleAt id t now => exact storeLessonsOk_scheduleLesson id t now h
  | archiveOp id => exact storeLessonsOk_archiveLesson id h
  | workerTick now => exact storeLessonsOk_tick now h

/-- Admin schedule with a non-future due time: rejected before any write. -/
theorem scheduleLesson_reject {st : Store} {id t now : Nat} {l : Lesson}
    (hf : findLesson st id = some l) (ht : t ≤ now) :
    scheduleLesson st id (some t) now = (st, .invalidSchedule) := by
  unfold scheduleLesson
  dsimp only
  rw [hf]
  dsimp only
  unfold scheduleMethod
  dsimp only
  rw [if_pos ht]

/-- Admin schedule with a strictly future due time: the lesson is stored as
scheduled with that due time and a cleared `publishedAt`. -/
theorem scheduleLesson_ok {st : Store} {id t now : Nat} {l : Lesson}
    (hf : findLesson st id = some l) (ht : now < t) :
    scheduleLesson st id (some t) now =
      (saveLesson st id
        { l with status := .scheduled, publishAt := some t, publishedAt := none },
       .scheduled) := by
  unfold scheduleLesson
  dsimp only
  rw [hf]
  dsimp only
  unfold scheduleMethod
  dsimp only
  rw [if_neg (Nat.not_le.mpr ht)]

/-! ### Claims -/

/-- C1: publishing a lesson whose primary content language is missing a
portrait or landscape thumbnail is rejected with an asset-incompleteness
error listing exactly the missing variants, and the failed attempt leaves
the store — the lesson's status and every other field — unchanged. -/
theorem C1_publish_rejected_assets_incomplete (st : Store) (id now : Nat)
    (l : Lesson) (hf : findLesson st id = some l)
    (hv : (validateAssets id l st.lessonAssets).isValid = false) :
    publishLesson st id now =
      (st, .assetsIncomplete (validateAssets id l st.lessonAssets).missingVariants) ∧
    ∀ v : String,
      v ∈ (validateAssets id l st.lessonAssets).missingVariants ↔
        (v ∈ requiredVariants ∧ v ∉ availableVariants id l st.lessonAssets) := by
  constructor
  · unfold publishLesson
    rw [hf]
    dsimp only
    rw [publishMethod_of_invalid now hv]
  · intro v
    simp [validateAssets, List.mem_filter, List.contains, List.elem_iff]

/-- C1 witness: in a store whose only asset for lesson 1 is the portrait
thumbnail, publishing is rejected with exactly `["landscape"]` missing
and the store does not change. -/
theorem C1_witness :
    findLesson exStoreC1 1 = some baseLesson ∧
    (validateAssets 1 baseLesson exStoreC1.lessonAssets).isValid = false ∧
    publishLesson exStoreC1 1 7 =
      (exStoreC1,
       .assetsIncomplete (validateAssets 1 baseLesson exStoreC1.lessonAssets).missingVariants) ∧
    (validateAssets 1 baseLesson exStoreC1.lessonAssets).missingVariants = ["landscape"] := by
  refine ⟨by decide, by decide, ?_, by decide⟩
  exact (C1_publish_rejected_assets_incomplete exStoreC1 1 7 baseLesson
    (by decide) (by decide)).1

/-- C2 counterexample: the biconditional form of the invariant fails.  A
store whose single lesson is scheduled for time 5 satisfies both
biconditionals, yet after the lifecycle sequence `[archive lesson 1]` the
stored lesson is archived while its `publishAt` is still `some 5`, so
`status = scheduled ↔ publishAt ≠ null` is false for it. -/
theorem C2_biconditional_counterexample :
    (∀ p ∈ exStoreC2.lessons,
      (p.snd.status = LessonStatus.scheduled ↔ p.snd.publishAt ≠ none) ∧
      (p.snd.status = LessonStatus.published ↔ p.snd.publishedAt ≠ none)) ∧
    ¬ (∀ p ∈ (applyOps exStoreC2 [AdminOp.archiveOp 1]).lessons,
      (p.snd.status = LessonStatus.scheduled ↔ p.snd.publishAt ≠ none) ∧
      (p.snd.status = LessonStatus.published ↔ p.snd.publishedAt ≠ none)) := by
  decide

/-- C2 (amended): after any sequence of the lifecycle operations (publish,
schedule, archive, worker tick), every stored lesson still satisfies the
implication directions the schema validators enforce —
`status = scheduled → publishAt ≠ null` and
`status = published → publishedAt ≠ null`.  The converse directions do not
hold, because `archive` clears neither timestamp. -/
theorem C2_status_timestamp_invariants (st : Store) (ops : List AdminOp)
    (h : storeLessonsOk st) : storeLessonsOk (applyOps st ops) := by
  induction ops generalizing st with
  | nil => exact h
  | cons op rest ih => exact ih _ (storeLessonsOk_applyOp op h)

/-- C2 witness: the invariant holds concretely before and after an
archive-then-tick sequence. -/
theorem C2_witness :
    storeLessonsOk exStoreC2 ∧
    storeLessonsOk
      (applyOps exStoreC2 [AdminOp.archiveOp 1, AdminOp.workerTick 9]) :=
  ⟨by decide,
   C2_status_timestamp_invariants exStoreC2
     [AdminOp.archiveOp 1, AdminOp.workerTick 9] (by decide)⟩

/-- C3: the worker's due-processing is idempotent.  If a first run
transitions a scheduled lesson to published, a second run on the same
lesson performs no write (the store is returned untouched), reports the
no-op outcome rather than an error, and leaves `publishedAt` unchanged. -/
theorem C3_processDue_idempotent (st : Store) (id now now' : Nat)
    (l : Lesson) (hf : findLesson st id = some l)
    (hs : l.status = LessonStatus.scheduled)
    (hv : (validateAssets id l st.lessonAssets).isValid = true)
    (hnf : st.programSaveFails = false) :
    (processOne st id now).snd = .published ∧
    processOne (processOne st id now).fst id now' =
      ((processOne st id now).fst, .noOp) ∧
    (findLesson (processOne (processOne st id now).fst id now').fst id).map
        Lesson.publishedAt =
      (findLesson (processOne st id now).fst id).map Lesson.publishedAt := by
  obtain ⟨h1, h2⟩ := processOne_publishes now hf hs hv hnf
  have hnoop : processOne (processOne st id now).fst id now' =
      ((processOne st id now).fst, .noOp) :=
    processOne_noOp h1 (by simp)
  exact ⟨h2, hnoop, by rw [hnoop]⟩

/-- C3 witness: concrete double run of the worker step on lesson 1. -/
theorem C3_witness :
    findLesson exStoreC3 1 = some exLessonC3 ∧
    exLessonC3.status = LessonStatus.scheduled ∧
    (validateAssets 1 exLessonC3 exStoreC3.lessonAssets).isValid = true ∧
    exStoreC3.programSaveFails = false ∧
    (processOne exStoreC3 1 9).snd = .published ∧
    processOne (processOne exStoreC3 1 9).fst 1 10 =
      ((processOne exStoreC3 1 9).fst, .noOp) := by
  refine ⟨by decide, by decide, by decide, by decide, ?_, ?_⟩
  · exact (C3_processDue_idempotent exStoreC3 1 9 10 exLessonC3
      (by decide) (by decide) (by decide) (by decide)).1
  · exact (C3_processDue_idempotent exStoreC3 1 9 10 exLessonC3
      (by decide) (by decide) (by decide) (by decide)).2.1

/-- C4: publishing a lesson whose parent program is draft transitions the
program to published with a non-null `publishedAt` (kept if already set);
publishing a lesson of an already published or archived program leaves the
program document — status and `publishedAt` included — unchanged, and the
publish still succeeds (no-op cascade, not an error). -/
theorem C4_publish_cascade (st : Store) (id now : Nat) (l : Lesson)
    (term : Term) (prog : Program)
    (hf : findLesson st id = some l)
    (hv : (validateAssets id l st.lessonAssets).isValid = true)
    (hterm : findTerm st l.termId = some term)
    (hprog : findProgram st term.programId = some prog)
    (hnf : st.programSaveFails = false) :
    (prog.status = ProgramStatus.draft →
      findProgram (publishLesson st id now).fst term.programId =
        some (autoPublish prog now) ∧
      (autoPublish prog now).status = ProgramStatus.published ∧
      (autoPublish prog now).publishedAt = some (prog.publishedAt.getD now)) ∧
    (prog.status ≠ ProgramStatus.draft →
      findProgram (publishLesson st id now).fst term.programId = some prog ∧
      (publishLesson st id now).snd = .published) := by
  constructor
  · intro hd
    refine ⟨publishLesson_cascade_draft now hf hv hterm hprog hd hnf, ?_, ?_⟩
    · simp [autoPublish, hd]
    · simp [autoPublish, hd]
  · intro hd
    exact publishLesson_cascade_nondraft now hf hv hterm hprog hd

/-- C4 witness: publishing lesson 1 of a draft program publishes the
program with `publishedAt = 7`; publishing lesson 1 of an already published
program (`publishedAt = 2`) leaves the program document unchanged. -/
theorem C4_witness :
    findProgram (publishLesson exStoreC4 1 7).fst 1 =
      some (autoPublish baseProgram 7) ∧
    (autoPublish baseProgram 7).publishedAt = some 7 ∧
    findProgram (publishLesson exStoreC4b 1 7).fst 1 =
      some { baseProgram with status := .published, publishedAt := some 2 } ∧
    (publishLesson exStoreC4b 1 7).snd = .published := by
  refine ⟨?_, by decide, ?_, ?_⟩
  · exact ((C4_publish_cascade exStoreC4 1 7 baseLesson baseTerm baseProgram
      (by decide) (by decide) (by decide) (by decide) (by decide)).1 (by decide)).1
  · exact ((C4_publish_cascade exStoreC4b 1 7 baseLesson baseTerm
      { baseProgram with status := .published, publishedAt := some 2 }
      (by decide) (by decide) (by decide) (by decide) (by decide)).2 (by decide)).1
  · exact ((C4_publish_cascade exStoreC4b 1 7 baseLesson baseTerm
      { baseProgram with status := .published, publishedAt := some 2 }
      (by decide) (by decide) (by decide) (by decide) (by decide)).2 (by decide)).2

/-- C5 counterexample: the admin publish-now write is not a compare-and-set
guarded on `status ∈ {draft, scheduled}`.  Lesson 1 of this store is
`archived` (its status was changed by another process), yet publish-now at
time 9 applies the write — the stored lesson ends up `published` with
`publishedAt = 9` and the outcome is success, not a rejected conflict. -/
theorem C5_conflict_counterexample :
    (findLesson exStoreC5 1).map Lesson.status = some LessonStatus.archived ∧
    (publishLesson exStoreC5 1 9).snd = .published ∧
    (findLesson (publishLesson exStoreC5 1 9).fst 1).map Lesson.status =
      some LessonStatus.published ∧
    (findLesson (publishLesson exStoreC5 1 9).fst 1).map Lesson.publishedAt =
      some (some 9) := by
  decide

/-- C5 (amended): the admin publish-now operation performs no status guard
at all.  Whenever the lesson exists, its assets are complete and the
program save does not fail, the write is applied regardless of the lesson's
current status — including `published` and `archived` — and the operation
reports success; no conflict outcome exists in this code path. -/
theorem C5_publish_unconditional (st : Store) (id now : Nat) (l : Lesson)
    (hf : findLesson st id = some l)
    (hv : (validateAssets id l st.lessonAssets).isValid = true)
    (hnf : st.programSaveFails = false) :
    findLesson (publishLesson st id now).fst id =
      some { l with status := .published, publishedAt := some now, publishAt := none } ∧
    (publishLesson st id now).snd = .published :=
  publishLesson_publishes now hf hv hnf

/-- C5 witness: the amended statement applied to the archived lesson. -/
theorem C5_witness :
    findLesson exStoreC5 1 = some exLessonC5 ∧
    (validateAssets 1 exLessonC5 exStoreC5.lessonAssets).isValid = true ∧
    findLesson (publishLesson exStoreC5 1 9).fst 1 =
      some { exLessonC5 with
             status := .published, publishedAt := some 9, publishAt := none } ∧
    (publishLesson exStoreC5 1 9).snd = .published := by
  refine ⟨by decide, by decide, ?_, ?_⟩
  · exact (C5_publish_unconditional exStoreC5 1 9 exLessonC5
      (by decide) (by decide) (by decide)).1
  · exact (C5_publish_unconditional exStoreC5 1 9 exLessonC5
      (by decide) (by decide) (by decide)).2

/-- C6: when the worker processes a due scheduled lesson whose assets have
become incomplete, the step fails with the asset-incompleteness outcome and
writes nothing — the lesson keeps status `scheduled` and its original due
time — the run summary counts exactly one more error, and the loop
continues with the remaining due lessons from the same store. -/
theorem C6_due_assets_incomplete (st : Store) (id : Nat) (rest : List Nat)
    (now t : Nat) (rep : RunReport) (l : Lesson)
    (hf : findLesson st id = some l)
    (hs : l.status = LessonStatus.scheduled)
    (hd : l.publishAt = some t) (hdue : t ≤ now)
    (hv : (validateAssets id l st.lessonAssets).isValid = false) :
    processOne st id now =
      (st, .assetsIncomplete (validateAssets id l st.lessonAssets).missingVariants) ∧
    (findLesson (processOne st id now).fst id).map
        (fun x => (x.status, x.publishAt)) =
      some (LessonStatus.scheduled, some t) ∧
    runList st (id :: rest) now rep =
      runList st rest now { rep with errors := rep.errors + 1 } := by
  have h1 := @processOne_assetsIncomplete st id now l hf hs hv
  refine ⟨h1, ?_, ?_⟩
  · rw [h1]
    dsimp only
    rw [hf]
    simp [hs, hd]
  · simp only [runList, h1, countOutcome]

/-- C6 witness: in a store with two due lessons where lesson 1 lost its
assets, the tick leaves lesson 1 scheduled at its original due time,
publishes lesson 2, and reports found 2, processed 1, errors 1. -/
theorem C6_witness :
    findLesson exStoreC6 1 = some exLessonC6a ∧
    exLessonC6a.status = LessonStatus.scheduled ∧
    exLessonC6a.publishAt = some 3 ∧
    (validateAssets 1 exLessonC6a exStoreC6.lessonAssets).isValid = false ∧
    runList exStoreC6 [1, 2] 9 { found := 2, processed := 0, errors := 0 } =
      runList exStoreC6 [2] 9 { found := 2, processed := 0, errors := 1 } ∧
    (processScheduledLessons exStoreC6 9).snd =
      { found := 2, processed := 1, errors := 1 } ∧
    (findLesson (processScheduledLessons exStoreC6 9).fst 1).map
        (fun x => (x.status, x.publishAt)) =
      some (LessonStatus.scheduled, some 3) ∧
    (findLesson (processScheduledLessons exStoreC6 9).fst 2).map
        Lesson.status = some LessonStatus.published := by
  refine ⟨by decide, by decide, by decide, by decide, ?_, by decide, by decide,
    by decide⟩
  exact (C6_due_assets_incomplete exStoreC6 1 [2] 9 3
    { found := 2, processed := 0, errors := 0 } exLessonC6a
    (by decide) (by decide) (by decide) (by decide) (by decide)).2.2

/-- C7: scheduling with a requested due time less than or equal to the
current time is rejected with the invalid-schedule error and no write
occurs (the store is returned unchanged); scheduling with any strictly
future due time succeeds, storing the lesson as `scheduled` with that due
time and a cleared `publishedAt`. -/
theorem C7_schedule_guard (st : Store) (id t now : Nat) (l : Lesson)
    (hf : findLesson st id = some l) :
    (t ≤ now → scheduleLesson st id (some t) now = (st, .invalidSchedule)) ∧
    (now < t →
      scheduleLesson st id (some t) now =
        (saveLesson st id
          { l with status := .scheduled, publishAt := some t, publishedAt := none },
         .scheduled) ∧
      findLesson (scheduleLesson st id (some t) now).fst id =
        some { l with status := .scheduled, publishAt := some t, publishedAt := none }) := by
  refine ⟨fun ht => scheduleLesson_reject hf ht, fun ht => ⟨scheduleLesson_ok hf ht, ?_⟩⟩
  rw [scheduleLesson_ok hf ht]
  dsimp only
  rw [findLesson_saveLesson_self, hf]
  rfl

/-- C7 witness: scheduling lesson 1 for t = 5 at now = 5 is rejected with
no write; scheduling it for t = 6 at now = 5 stores it as scheduled. -/
theorem C7_witness :
    findLesson exStoreC7 1 = some baseLesson ∧
    scheduleLesson exStoreC7 1 (some 5) 5 = (exStoreC7, .invalidSchedule) ∧
    findLesson (scheduleLesson exStoreC7 1 (some 6) 5).fst 1 =
      some { baseLesson with
             status := .scheduled, publishAt := some 6, publishedAt := none } := by
  refine ⟨by decide, ?_, ?_⟩
  · exact (C7_schedule_guard exStoreC7 1 5 5 baseLesson (by decide)).1
      (by decide)
  · exact ((C7_schedule_guard exStoreC7 1 6 5 baseLesson (by decide)).2
      (by decide)).2

/-- C8 counterexample: in the worker path the claim fails.  Lesson 1 of
this store is scheduled and due with complete assets under a draft program,
and the program save is set up to fail.  Inside the transaction the
lesson's own status change to published is executed and the subsequent
program cascade write fails — yet the lesson does not remain published: the
transaction rolls everything back, and the stored lesson is still
`scheduled` with `publishedAt = null`. -/
theorem C8_rollback_counterexample :
    (findLesson exStoreC8 1).map Lesson.status = some LessonStatus.scheduled ∧
    processOne exStoreC8 1 9 = (exStoreC8, DueOutcome.txnError) ∧
    (findLesson (processOne exStoreC8 1 9).fst 1).map Lesson.status =
      some LessonStatus.scheduled ∧
    (findLesson (processOne exStoreC8 1 9).fst 1).map Lesson.publishedAt =
      some none := by
  decide

/-- C8 (amended): the two code paths differ.  In the admin publish path the
lesson save and the program cascade are separate writes, so when the
cascade save fails the lesson stays published, the program document is
untouched, and the failure is surfaced to the caller.  In the worker path
both writes run inside one transaction, so the same cascade failure rolls
back the lesson's own publication too — the store reverts entirely — and
the tick records the error. -/
theorem C8_cascade_failure (st : Store) (id now : Nat) (l : Lesson)
    (term : Term) (prog : Program)
    (hf : findLesson st id = some l)
    (hv : (validateAssets id l st.lessonAssets).isValid = true)
    (hterm : findTerm st l.termId = some term)
    (hprog : findProgram st term.programId = some prog)
    (hd : prog.status = ProgramStatus.draft)
    (hfail : st.programSaveFails = true) :
    (findLesson (publishLesson st id now).fst id =
        some { l with status := .published, publishedAt := some now, publishAt := none } ∧
      (publishLesson st id now).snd = .cascadeFailed ∧
      findProgram (publishLesson st id now).fst term.programId = some prog) ∧
    (l.status = LessonStatus.scheduled →
      processOne st id now = (st, .txnError)) := by
  have hpub := publishLesson_cascadeFailure now hf hv hterm hprog hd hfail
  constructor
  · refine ⟨?_, ?_, ?_⟩
    · rw [hpub]
      dsimp only
      rw [findLesson_saveLesson_self, hf]
      rfl
    · rw [hpub]
    · rw [hpub]
      dsimp only
      rw [findProgram_saveLesson]
      exact hprog
  · intro hs
    exact processOne_txnFailure now hf hs hv hterm hprog hd hfail

/-- C8 witness: both halves at the failure-injected store. -/
theorem C8_witness :
    findLesson exStoreC8 1 = some exLessonC8 ∧
    exStoreC8.programSaveFails = true ∧
    findLesson (publishLesson exStoreC8 1 9).fst 1 =
      some { exLessonC8 with
             status := .published, publishedAt := some 9, publishAt := none } ∧
    (publishLesson exStoreC8 1 9).snd = .cascadeFailed ∧
    processOne exStoreC8 1 9 = (exStoreC8, DueOutcome.txnError) := by
  refine ⟨by decide, by decide, ?_, ?_, ?_⟩
  · exact ((C8_cascade_failure exStoreC8 1 9 exLessonC8 baseTerm baseProgram
      (by decide) (by decide) (by decide) (by decide) (by decide) (by decide)).1).1
  · exact ((C8_cascade_failure exStoreC8 1 9 exLessonC8 baseTerm baseProgram
      (by decide) (by decide) (by decide) (by decide) (by decide) (by decide)).1).2.1
  · exact (C8_cascade_failure exStoreC8 1 9 exLessonC8 baseTerm baseProgram
      (by decide) (by decide) (by decide) (by decide) (by decide) (by decide)).2
      (by decide)

/-- C9 counterexample: an archived lesson can be re-scheduled directly.
Lesson 1 of this store is archived; a schedule request for the strictly
future due time 10 at now = 5 succeeds and the stored lesson's status
becomes `scheduled` — no prior admin reset to draft is required. -/
theorem C9_reschedule_counterexample :
    (findLesson exStoreC9 1).map Lesson.status = some LessonStatus.archived ∧
    (scheduleLesson exStoreC9 1 (some 10) 5).snd = ScheduleOutcome.scheduled ∧
    (findLesson (scheduleLesson exStoreC9 1 (some 10) 5).fst 1).map
        Lesson.status = some LessonStatus.scheduled := by
  decide

/-- C9 (amended): the schedule operation checks only that the due time is
strictly future; it has no source-status guard.  For every archived lesson
and every strictly future due time, scheduling succeeds and transitions the
lesson directly to `scheduled` with that due time. -/
theorem C9_schedule_from_archived (st : Store) (id t now : Nat) (l : Lesson)
    (hf : findLesson st id = some l)
    (ha : l.status = LessonStatus.archived)
    (ht : now < t) :
    scheduleLesson st id (some t) now =
      (saveLesson st id
        { l with status := .scheduled, publishAt := some t, publishedAt := none },
       .scheduled) ∧
    (findLesson (scheduleLesson st id (some t) now).fst id).map Lesson.status =
      some LessonStatus.scheduled := by
  have h := scheduleLesson_ok hf ht
  refine ⟨h, ?_⟩
  rw [h]
  dsimp only
  rw [findLesson_saveLesson_self, hf]
  rfl

/-- C9 witness: the amended statement at the archived lesson. -/
theorem C9_witness :
    findLesson exStoreC9 1 = some exLessonC9 ∧
    exLessonC9.status = LessonStatus.archived ∧
    scheduleLesson exStoreC9 1 (some 10) 5 =
      (saveLesson exStoreC9 1
        { exLessonC9 with
          status := .scheduled, publishAt := some 10, publishedAt := none },
       .scheduled) := by
  refine ⟨by decide, by decide, ?_⟩
  exact (C9_schedule_from_archived exStoreC9 1 10 5 exLessonC9
    (by decide) (by decide) (by decide)).1

/-- C10: the archive operation writes back the loaded lesson with only its
status replaced by `archived`: `publishAt`, `publishedAt` and every other
field are exactly as they were — in particular a scheduled lesson keeps its
due time and a published lesson keeps its `publishedAt`. -/
theorem C10_archive_frame (st : Store) (id : Nat) (l : Lesson)
    (hf : findLesson st id = some l) :
    archiveLesson st id = (saveLesson st id (archiveMethod l), true) ∧
    findLesson (archiveLesson st id).fst id = some (archiveMethod l) ∧
    (archiveMethod l).status = LessonStatus.archived ∧
    (archiveMethod l).publishAt = l.publishAt ∧
    (archiveMethod l).publishedAt = l.publishedAt ∧
    (archiveMethod l).termId = l.termId ∧
    (archiveMethod l).lessonNumber = l.lessonNumber ∧
    (archiveMethod l).title = l.title ∧
    (archiveMethod l).contentType = l.contentType ∧
    (archiveMethod l).durationMs = l.durationMs ∧
    (archiveMethod l).isPaid = l.isPaid ∧
    (archiveMethod l).contentLanguagePrimary = l.contentLanguagePrimary ∧
    (archiveMethod l).contentLanguagesAvailable = l.contentLanguagesAvailable ∧
    (archiveMethod l).contentUrlsByLanguage = l.contentUrlsByLanguage ∧
    (archiveMethod l).subtitleLanguages = l.subtitleLanguages ∧
    (archiveMethod l).subtitleUrlsByLanguage = l.subtitleUrlsByLanguage := by
  unfold archiveLesson
  rw [hf]
  refine ⟨rfl, ?_, rfl, rfl, rfl, rfl, rfl, rfl, rfl, rfl, rfl, rfl, rfl,
    rfl, rfl, rfl⟩
  dsimp only
  rw [findLesson_saveLesson_self, hf]
  rfl

/-- C10 witness: archiving the published lesson keeps `publishedAt = 4`. -/
theorem C10_witness :
    findLesson exStoreC10 1 = some exLessonC10 ∧
    archiveLesson exStoreC10 1 =
      (saveLesson exStoreC10 1 (archiveMethod exLessonC10), true) ∧
    (archiveMethod exLessonC10).publishedAt = some 4 ∧
    (archiveMethod exLessonC10).status = LessonStatus.archived := by
  refine ⟨by decide, ?_, by decide, by decide⟩
  exact (C10_archive_frame exStoreC10 1 exLessonC10 (by decide)).1

end CMS
